import Mathlib

/-!
# Verification of the Genesys Audiohook ↔ Agent Assist bridge

A shallow embedding, in Lean 4, of the core of the
`backend_genesys_audiohook` repository:

* `audiohook.py`         — the Audiohook protocol message factory (`AudioHook`);
* `audio_stream.py`      — the per-role audio stream with restart look-back
                           (`Stream`, `Stream.generator`);
* `dialogflow_api.py`    — the recognition worker RPC session
                           (`streaming_analyze_content`) and the
                           conversation-name normalization
                           (`determine_conversation_name_without_location`);
* `audiohook_blueprint.py` — the WebSocket connection loop
                           (`audiohook_connect`), the audio demultiplexer, and
                           the periodic summarization ticker
                           (`periodic_conversation_summary`).

Python dictionaries holding JSON payloads are embedded as structures or as a
small `JVal` tree; Python integers are `Nat`/`Int`; Python float arithmetic in
the replay computation is embedded as exact rational (`ℚ`) arithmetic (the
quantities involved are integers divided by 1000, far from the double-precision
rounding boundary); fallible operations return an explicit error component.
-/

namespace AudiohookVerif

/-- A dynamically-typed Python value, as far as the protocol code needs one:
`audiohook.py` initializes `session_id = 0` and `client_sequence = 0` and later
overwrites them with the raw results of `json_message.get(...)`, which may be
`None`, an `int`, or a `str`. -/
inductive PyVal where
  | pyNone : PyVal
  | int (n : Nat) : PyVal
  | str (s : String) : PyVal
deriving DecidableEq, Repr

/-- `audiohook.DEFAULT_CONVERSATION_ID`: the all-zero UUID that marks a
connection probe. -/
def DEFAULT_CONVERSATION_ID : String := "00000000-0000-0000-0000-000000000000"

/-- `audiohook.AUDIOHOOK_VERSION`. -/
def AUDIOHOOK_VERSION : String := "2"

/-- The mutable state of `audiohook.AudioHook` (`AudioHook.__init__`). -/
structure AudioHook where
  preServerSequence : Nat := 0
  preClientSequence : Nat := 0
  serverSequence : Nat := 0
  clientSequence : PyVal := .int 0
  sessionId : PyVal := .int 0
  firstResume : Bool := true
deriving DecidableEq, Repr

/-- An outbound Audiohook control message as built by
`AudioHook.create_message_by_type`: the dict
`{"version", "type", "seq", "clientseq", "id", "parameters"}`.  The `parameters`
bag is irrelevant to the sequencing claims and is omitted (it is `{}` except in
`create_opened_message`, which only adds media fields). -/
structure OutMessage where
  version : String
  type : String
  seq : Nat
  clientseq : PyVal
  id : PyVal
deriving DecidableEq, Repr

namespace AudioHook

/-- `AudioHook.set_session_id`, fed by the blueprint with
`json_message.get("id", 0)`. -/
def setSessionId (h : AudioHook) (sessionId : PyVal) : AudioHook :=
  { h with sessionId := sessionId }

/-- `AudioHook.set_client_sequence`, fed by the blueprint with
`json_message.get("seq")` (so possibly `None`).  It stores the value as-is. -/
def setClientSequence (h : AudioHook) (clientSequence : PyVal) : AudioHook :=
  { h with clientSequence := clientSequence }

/-- `AudioHook.create_message_by_type`: bumps the server sequence and builds
the outbound message carrying the stored client sequence. -/
def createMessageByType (h : AudioHook) (messageType : String) :
    OutMessage × AudioHook :=
  let h' := { h with
    preServerSequence := h.serverSequence
    serverSequence := h.serverSequence + 1 }
  (⟨AUDIOHOOK_VERSION, messageType, h'.serverSequence, h'.clientSequence,
    h'.sessionId⟩, h')

end AudioHook

/-- One event of a protocol session, as seen by the `AudioHook` object inside
the blueprint's receive loop: either an inbound text message is observed (the
blueprint then calls `set_client_sequence(json_message.get("seq"))`), or an
outbound message of some type is created and sent. -/
inductive HookEvent where
  | inbound (seq : PyVal)
  | outbound (messageType : String)
deriving DecidableEq, Repr

/-- Run a list of `HookEvent`s against an `AudioHook`, collecting the outbound
messages in the order they are created. -/
def runHook (h : AudioHook) : List HookEvent → AudioHook × List OutMessage
  | [] => (h, [])
  | .inbound v :: rest => runHook (h.setClientSequence v) rest
  | .outbound t :: rest =>
    let (m, h') := h.createMessageByType t
    let (h'', ms) := runHook h' rest
    (h'', m :: ms)

/-- The last `seq` value observed among the inbound events of a trace, given a
starting value (the `AudioHook` constructor initializes it to `0`). -/
def lastInboundSeq (v : PyVal) : List HookEvent → PyVal
  | [] => v
  | .inbound w :: rest => lastInboundSeq w rest
  | .outbound _ :: rest => lastInboundSeq v rest

/-- Number of outbound events in a trace. -/
def countOutbound : List HookEvent → Nat
  | [] => 0
  | .inbound _ :: rest => countOutbound rest
  | .outbound _ :: rest => countOutbound rest + 1

theorem runHook_fst_clientSequence (h : AudioHook) (es : List HookEvent) :
    (runHook h es).1.clientSequence = lastInboundSeq h.clientSequence es := by
  induction es generalizing h with
  | nil => rfl
  | cons e rest ih =>
    cases e with
    | inbound v =>
      show (runHook (h.setClientSequence v) rest).1.clientSequence
        = lastInboundSeq v rest
      rw [ih (h.setClientSequence v)]
      rfl
    | outbound t =>
      show (runHook (h.createMessageByType t).2 rest).1.clientSequence
        = lastInboundSeq h.clientSequence rest
      rw [ih (h.createMessageByType t).2]
      rfl


theorem runHook_seq_range (h : AudioHook) (es : List HookEvent) :
    ((runHook h es).2.map OutMessage.seq)
      = List.range' (h.serverSequence + 1) (countOutbound es) := by
  induction es generalizing h with
  | nil => rfl
  | cons e rest ih =>
    cases e with
    | inbound v =>
      show ((runHook (h.setClientSequence v) rest).2.map OutMessage.seq)
        = List.range' (h.serverSequence + 1) (countOutbound rest)
      rw [ih (h.setClientSequence v)]
      rfl
    | outbound t =>
      show OutMessage.seq (h.createMessageByType t).1
          :: ((runHook (h.createMessageByType t).2 rest).2.map OutMessage.seq)
        = List.range' (h.serverSequence + 1) (countOutbound rest + 1)
      rw [ih (h.createMessageByType t).2, List.range'_succ]
      rfl

theorem runHook_append_outbound (h : AudioHook) (es : List HookEvent)
    (t : String) :
    (runHook h (es ++ [.outbound t])).2
      = (runHook h es).2
        ++ [((runHook h es).1.createMessageByType t).1] := by
  induction es generalizing h with
  | nil => rfl
  | cons e rest ih =>
    cases e with
    | inbound v =>
      show (runHook (h.setClientSequence v) (rest ++ [.outbound t])).2
        = (runHook (h.setClientSequence v) rest).2
          ++ [((runHook (h.setClientSequence v) rest).1.createMessageByType t).1]
      rw [ih (h.setClientSequence v)]
    | outbound u =>
      show (h.createMessageByType u).1
          :: (runHook (h.createMessageByType u).2 (rest ++ [.outbound t])).2
        = (h.createMessageByType u).1
            :: (runHook (h.createMessageByType u).2 rest).2
          ++ [((runHook (h.createMessageByType u).2 rest).1.createMessageByType
                t).1]
      rw [ih (h.createMessageByType u).2, List.cons_append]

/-- The freshly constructed `AudioHook` (`AudioHook.__init__`). -/
def AudioHook.init : AudioHook := {}

/-- **C2 (counterexample).**  The claim says every outbound message carries
`clientseq` equal to the *maximum* `seq` observed from the peer so far.
`AudioHook.set_client_sequence` stores the *last* observed value: on the trace
in which the peer sends `seq 5` and then `seq 3` before the server's first
outbound, that outbound carries `clientseq = 3`, while the maximum observed is
`5`. -/
theorem c2_clientseq_not_max :
    ((runHook AudioHook.init
        [.inbound (.int 5), .inbound (.int 3), .outbound "pong"]).2.map
          OutMessage.clientseq) = [.int 3]
      ∧ PyVal.int 3 ≠ PyVal.int (max 5 3) := by
  exact ⟨rfl, by decide⟩

/-- **C2 (amended).**  For any session trace: (1) the outbound `seq` values are
exactly `1, 2, …, k` where `k` is the number of outbound messages — strictly
increasing by one starting at 1; and (2) each outbound message carries
`clientseq` equal to the *last* `seq` value observed from the peer before it
was created (initially `0`), not the maximum. -/
theorem c2_seq_discipline (es : List HookEvent) (t : String) :
    ((runHook AudioHook.init es).2.map OutMessage.seq)
        = List.range' 1 (countOutbound es)
      ∧ ((runHook AudioHook.init (es ++ [.outbound t])).2.map
          OutMessage.clientseq).getLast?
        = some (lastInboundSeq (.int 0) es) := by
  refine ⟨runHook_seq_range AudioHook.init es, ?_⟩
  rw [runHook_append_outbound, List.map_append, List.getLast?_append]
  show some ((runHook AudioHook.init es).1.clientSequence)
    = some (lastInboundSeq (.int 0) es)
  rw [runHook_fst_clientSequence]
  rfl

/-! ## The per-role audio stream (`audio_stream.Stream`)

Bytes are `Nat` (µ-law sample values); the retained log `audio_input_chunks`
and the inbound queue `_buff` are lists of chunks, a chunk being a byte list.
Queue entries are `Option`s because the generator treats a `None` chunk as the
end-of-stream sentinel. -/

/-- The state of `audio_stream.Stream` (`Stream.__init__` plus the fields the
worker mutates). -/
structure Stream where
  rate : Nat
  chunkSize : Nat
  buff : List (Option (List Nat)) := []
  isFinal : Bool := false
  closed : Bool := false
  terminate : Bool := false
  restartCounter : Nat := 0
  lastStartTime : Nat := 0
  totalInputAudioTime : Nat := 0
  isFinalOffset : Nat := 0
  speechEndOffset : Nat := 0
  audioInputChunks : List (List Nat) := []
  newStream : Bool := true
deriving DecidableEq, Repr

/-- `Stream.fill_buffer`: the producer appends an inbound chunk to the queue. -/
def Stream.fillBuffer (s : Stream) (inData : List Nat) : Stream :=
  { s with buff := s.buff ++ [some inData] }

/-- Python `int(x)` on a float/rational: truncation toward zero. -/
def pyInt (x : ℚ) : Int :=
  if 0 ≤ x then Int.floor x else Int.ceil x

/-- Python slicing `l[k:]` for an arbitrary (possibly negative) integer `k`. -/
def pySliceFrom (l : List α) (k : Int) : List α :=
  if 0 ≤ k then l.drop k.toNat else l.drop (l.length - (-k).toNat)

/-- The restart prologue of `Stream.generator` (`audio_stream.py:84-128`): bump
`restart_counter`, clear `is_final`, advance `last_start_time` by
`is_final_offset`, and — when the processed-byte count is non-zero — emit the
look-back replay payload `audio_bytes[-need_to_process_length:]` where
`need_to_process_length = min(int(len(audio_bytes) - processed_bytes_length),
int(max_lookback * rate * 8 / 8))`.  `maxLookback` is `config.max_lookback`.
Python's float arithmetic is embedded as exact rational arithmetic. -/
def generatorPrologue (maxLookback : Nat) (s : Stream) :
    Option (List Nat) × Stream :=
  let s1 := { s with restartCounter := s.restartCounter + 1, isFinal := false }
  let totalProcessedTime : Nat := s1.lastStartTime + s1.isFinalOffset
  let processedBytesLength : ℚ :=
    ((totalProcessedTime : ℚ) * (s1.rate : ℚ) * 8 / 8) / 1000
  let s2 := { s1 with lastStartTime := totalProcessedTime }
  if processedBytesLength ≠ 0 then
    let audioBytes := s2.audioInputChunks.flatten
    let needToProcessLength : Int :=
      min (pyInt ((audioBytes.length : ℚ) - processedBytesLength))
          (pyInt ((maxLookback : ℚ) * (s2.rate : ℚ) * 8 / 8))
    let needToProcessBytes := pySliceFrom audioBytes ((-1) * needToProcessLength)
    (some needToProcessBytes, s2)
  else
    (none, s2)

/-- Drain the queue the way one iteration of the generator's consume loop does
(one blocking `get` followed by non-blocking `get`s until `queue.Empty`):
returns the chunks collected before any `None` sentinel, whether a sentinel was
hit, and the queue contents left behind. -/
def drainQueue : List (Option (List Nat)) →
    List (List Nat) × Bool × List (Option (List Nat))
  | [] => ([], false, [])
  | none :: t => ([], true, t)
  | some c :: t =>
    let (r, b, rem) := drainQueue t
    (c :: r, b, rem)

/-- The consume loop of `Stream.generator` (`audio_stream.py:129-172`) run
against a fixed queue snapshot (no concurrent producer).  One pass of the loop
empties the queue: the blocking `get` takes the first entry and the inner
non-blocking loop takes the rest, so the second iteration always hits the
`queue.Empty` timeout and breaks.  A `None` sentinel makes the generator return
at once, discarding the chunks drained before it and leaving the rest queued.
The collected data is appended to the retained log and yielded as one joined
payload.  When `speech_end_offset` exceeds 110 000 ms the loop sets `is_final`
and stops before consuming anything. -/
def generatorConsume (s : Stream) : List (List Nat) × Stream :=
  if s.closed || s.isFinal then ([], s)
  else if 110000 < s.speechEndOffset then ([], { s with isFinal := true })
  else
    match s.buff with
    | [] => ([], s)
    | c :: t =>
      match drainQueue (c :: t) with
      | (_, true, rem) => ([], { s with buff := rem })
      | (chunks, false, _) =>
        ([chunks.flatten],
         { s with buff := [],
                  audioInputChunks := s.audioInputChunks ++ chunks })

/-- One full run of `Stream.generator` over the current stream state and queue
snapshot: the optional replay payload followed by the payloads of the consume
loop, together with the stream state the run leaves behind. -/
def generatorRun (maxLookback : Nat) (s : Stream) :
    List (List Nat) × Stream :=
  let (replay, s1) := generatorPrologue maxLookback s
  let (chunks, s2) := generatorConsume s1
  (replay.toList ++ chunks, s2)

/-- Integer form of Python `int(len - m / 1000)` for natural `len` and `m`:
truncation toward zero of the exact value. -/
def pyIntLenSub (len m : Nat) : Int :=
  if m ≤ 1000 * len then (((1000 * len - m) / 1000 : Nat) : Int)
  else -(((m - 1000 * len) / 1000 : Nat) : Int)

theorem pyInt_natCast (n : Nat) : pyInt (n : ℚ) = n := by
  unfold pyInt
  rw [if_pos (by positivity)]
  exact Int.floor_natCast n

theorem pyInt_sub_div (len m : Nat) :
    pyInt ((len : ℚ) - (m : ℚ) / 1000) = pyIntLenSub len m := by
  have hx : (len : ℚ) - (m : ℚ) / 1000
      = ((1000 * (len : ℤ) - (m : ℤ) : ℤ) : ℚ) / ((1000 : ℕ) : ℚ) := by
    push_cast
    ring
  unfold pyInt pyIntLenSub
  by_cases hm : m ≤ 1000 * len
  · have ha : (0 : ℤ) ≤ 1000 * (len : ℤ) - (m : ℤ) := by omega
    have h0 : (0 : ℚ) ≤ (len : ℚ) - (m : ℚ) / 1000 := by
      rw [hx]
      apply div_nonneg
      · exact_mod_cast ha
      · norm_num
    rw [if_pos h0, if_pos hm, hx, Rat.floor_intCast_div_natCast, Int.natCast_div]
    congr 1
    omega
  · have ha : (1000 * (len : ℤ) - (m : ℤ) : ℤ) < 0 := by omega
    have hneg : (len : ℚ) - (m : ℚ) / 1000 < 0 := by
      rw [hx]
      apply div_neg_of_neg_of_pos
      · exact_mod_cast ha
      · norm_num
    rw [if_neg (not_le.mpr hneg), if_neg hm]
    have hceil : (len : ℚ) - (m : ℚ) / 1000
        = -((((m : ℤ) - 1000 * (len : ℤ) : ℤ) : ℚ) / ((1000 : ℕ) : ℚ)) := by
      push_cast
      ring
    rw [hceil, Int.ceil_neg, Rat.floor_intCast_div_natCast, Int.natCast_div,
      neg_inj]
    congr 1
    omega

/-- `generatorPrologue` with the (exactly embedded) float arithmetic reduced
to integer arithmetic: writing `m` for
`(last_start_time + is_final_offset) * rate`, the processed-bytes length
`m / 1000` is non-zero iff `m ≠ 0`, and the replay slice length is
`min (int(len - m / 1000)) (max_lookback * rate)`. -/
def generatorPrologueInt (maxLookback : Nat) (s : Stream) :
    Option (List Nat) × Stream :=
  let totalProcessedTime := s.lastStartTime + s.isFinalOffset
  let s2 := { s with restartCounter := s.restartCounter + 1,
                     isFinal := false, lastStartTime := totalProcessedTime }
  if totalProcessedTime * s.rate ≠ 0 then
    let audioBytes := s2.audioInputChunks.flatten
    let needToProcessLength : Int :=
      min (pyIntLenSub audioBytes.length (totalProcessedTime * s.rate))
          ((maxLookback * s.rate : Nat) : Int)
    (some (pySliceFrom audioBytes ((-1) * needToProcessLength)), s2)
  else
    (none, s2)

theorem generatorPrologue_eq (ml : Nat) (s : Stream) :
    generatorPrologue ml s = generatorPrologueInt ml s := by
  unfold generatorPrologue generatorPrologueInt
  have hpbl : ((↑(s.lastStartTime + s.isFinalOffset) : ℚ) * (↑s.rate : ℚ)
        * 8 / 8 / 1000)
      = ((↑((s.lastStartTime + s.isFinalOffset) * s.rate) : ℚ) / 1000) := by
    push_cast
    ring
  have hcap : ((ml : ℚ) * (↑s.rate : ℚ) * 8 / 8)
      = ((↑(ml * s.rate) : ℚ)) := by
    push_cast
    ring
  have hiff : ((↑(s.lastStartTime + s.isFinalOffset) : ℚ) * (↑s.rate : ℚ)
        * 8 / 8 / 1000 ≠ 0)
      ↔ ((s.lastStartTime + s.isFinalOffset) * s.rate ≠ 0) := by
    rw [hpbl, div_ne_zero_iff]
    constructor
    · intro h hM
      exact h.1 (by exact_mod_cast hM)
    · intro h
      exact ⟨by exact_mod_cast h, by norm_num⟩
  have hsub : ∀ len : Nat,
      pyInt ((len : ℚ) - (↑(s.lastStartTime + s.isFinalOffset) : ℚ)
          * (↑s.rate : ℚ) * 8 / 8 / 1000)
        = pyIntLenSub len ((s.lastStartTime + s.isFinalOffset) * s.rate) := by
    intro len
    rw [hpbl, pyInt_sub_div]
  dsimp only
  split_ifs with h1 h2 h3
  · rw [hsub, hcap, pyInt_natCast]
  · exact absurd (hiff.mp h1) h2
  · exact absurd (hiff.mpr h3) h1
  · rfl

/-- `generatorRun` through the integer closed form of the prologue. -/
theorem generatorRun_eq_int (ml : Nat) (s : Stream) :
    generatorRun ml s
      = ((generatorPrologueInt ml s).1.toList
            ++ (generatorConsume (generatorPrologueInt ml s).2).1,
         (generatorConsume (generatorPrologueInt ml s).2).2) := by
  unfold generatorRun
  rw [generatorPrologue_eq]

theorem generatorPrologueInt_snd (ml : Nat) (s : Stream) :
    (generatorPrologueInt ml s).2
      = { s with restartCounter := s.restartCounter + 1,
                 isFinal := false,
                 lastStartTime := s.lastStartTime + s.isFinalOffset } := by
  unfold generatorPrologueInt
  dsimp only
  split_ifs <;> rfl

theorem generatorConsume_preserves (s : Stream) :
    (generatorConsume s).2.lastStartTime = s.lastStartTime
      ∧ (generatorConsume s).2.isFinalOffset = s.isFinalOffset := by
  unfold generatorConsume
  by_cases h1 : s.closed || s.isFinal
  · rw [if_pos h1]
    exact ⟨rfl, rfl⟩
  · rw [if_neg h1]
    by_cases h2 : 110000 < s.speechEndOffset
    · rw [if_pos h2]
      exact ⟨rfl, rfl⟩
    · rw [if_neg h2]
      rcases hb : s.buff with _ | ⟨c, t⟩
      · exact ⟨rfl, rfl⟩
      · dsimp only
        rcases hd : drainQueue (c :: t) with ⟨chunks, found, rem⟩
        cases found <;> exact ⟨rfl, rfl⟩

/-- Concrete stream for the C1 counterexample: the stream has processed
exactly `last_start_time · rate / 1000 = 8` bytes and retained exactly 8
bytes, so `need_to_process_length = min(8 - 8, 24000) = 0` and the replay
slice is `audio_bytes[0:]` — the *whole* retained log. -/
def c1CexStream : Stream :=
  { rate := 8000, chunkSize := 1600, lastStartTime := 1,
    audioInputChunks := [[0, 1, 2, 3, 4, 5, 6, 7]] }

/-- **C1 (counterexample).**  The claim says the first audio payload after a
restart at processed time `T` is the suffix of the retained log starting at
byte-index `T · rate / 1000`, and that no earlier byte is replayed.  For the
restart of `c1CexStream` (T = 1 ms, rate 8000, 8 retained bytes) that index is
8, so the claimed payload is the empty suffix; the code's
`audio_bytes[(-1) * 0:]` replays the entire log, bytes 0–7 included — all
earlier than index 8. -/
theorem c1_whole_log_replayed :
    (generatorRun 3 c1CexStream).1.head? = some [0, 1, 2, 3, 4, 5, 6, 7]
      ∧ (generatorRun 3 c1CexStream).2.lastStartTime * c1CexStream.rate / 1000
          = 8
      ∧ c1CexStream.audioInputChunks.flatten.drop 8 = []
      ∧ ([0, 1, 2, 3, 4, 5, 6, 7] : List Nat) ≠ [] := by
  simp only [generatorRun_eq_int]
  decide

/-- **C1 (amended).**  For a worker restart at processed time
`T = last_start_time + is_final_offset` (the value the prologue stores back
into `last_start_time`), write `pbN = T · rate / 1000` for the processed byte
count and `cap = max_lookback · rate`.  Provided `0 < pbN`, `pbN` is smaller
than the retained length, `1000 ∣ T · rate` (exact at the fixed 8 kHz µ-law
rate) and `0 < cap`, the first payload of the new RPC is the suffix of the
retained log starting at index `k ≥ pbN` of length exactly
`min (retained - pbN) cap ≤ cap`: no byte earlier than index `pbN` is
replayed. -/
theorem c1_replay_integrity (ml : Nat) (s : Stream)
    (hdvd : 1000 ∣ (s.lastStartTime + s.isFinalOffset) * s.rate)
    (h0 : 0 < (s.lastStartTime + s.isFinalOffset) * s.rate / 1000)
    (hlen : (s.lastStartTime + s.isFinalOffset) * s.rate / 1000
        < s.audioInputChunks.flatten.length)
    (hcap : 0 < ml * s.rate) :
    ∃ k, (generatorRun ml s).1.head? = some (s.audioInputChunks.flatten.drop k)
      ∧ (s.lastStartTime + s.isFinalOffset) * s.rate / 1000 ≤ k
      ∧ s.audioInputChunks.flatten.length - k
          = min (s.audioInputChunks.flatten.length
                  - (s.lastStartTime + s.isFinalOffset) * s.rate / 1000)
                (ml * s.rate)
      ∧ s.audioInputChunks.flatten.length - k ≤ ml * s.rate := by
  obtain ⟨p, hp⟩ := hdvd
  have hpbN : (s.lastStartTime + s.isFinalOffset) * s.rate / 1000 = p := by
    rw [hp, Nat.mul_div_cancel_left p (by norm_num)]
  rw [hpbN] at h0 hlen ⊢
  set len := s.audioInputChunks.flatten.length with hlen_def
  set need := min (len - p) (ml * s.rate) with hneed_def
  have hneed_le1 : need ≤ len - p := min_le_left _ _
  have hneed_le2 : need ≤ ml * s.rate := min_le_right _ _
  have hneed_pos : 0 < need := by
    rw [hneed_def]
    exact lt_min (by omega) hcap
  refine ⟨len - need, ?_, by omega, by omega, by omega⟩
  rw [generatorRun_eq_int]
  unfold generatorPrologueInt
  rw [if_pos (by rw [hp]; positivity)]
  have hneed1 : pyIntLenSub len ((s.lastStartTime + s.isFinalOffset) * s.rate)
      = ((len - p : ℕ) : ℤ) := by
    unfold pyIntLenSub
    rw [if_pos (by omega)]
    congr 1
    have h1000 : 1000 * len - (s.lastStartTime + s.isFinalOffset) * s.rate
        = 1000 * (len - p) := by omega
    rw [h1000, Nat.mul_div_cancel_left _ (by norm_num)]
  have hmin : min (pyIntLenSub len
        ((s.lastStartTime + s.isFinalOffset) * s.rate))
        ((ml * s.rate : Nat) : Int) = ((need : ℕ) : ℤ) := by
    rw [hneed1, hneed_def, Nat.cast_min]
  dsimp only
  rw [hmin]
  have hslice : pySliceFrom s.audioInputChunks.flatten ((-1) * ((need : ℕ) : ℤ))
      = s.audioInputChunks.flatten.drop (len - need) := by
    unfold pySliceFrom
    rw [if_neg (by omega)]
    congr 1
    omega
  rw [hslice]
  rfl

/-- Concrete stream for the C1 witness: 20 retained bytes, 8 of them already
processed. -/
def c1WitStream : Stream :=
  { rate := 8000, chunkSize := 1600, lastStartTime := 1,
    audioInputChunks :=
      [[0, 1, 2, 3, 4, 5, 6, 7, 8, 9, 10, 11, 12, 13, 14, 15, 16, 17, 18, 19]] }

theorem c1_replay_integrity_witness :
    ∃ k, (generatorRun 3 c1WitStream).1.head?
        = some (c1WitStream.audioInputChunks.flatten.drop k)
      ∧ (c1WitStream.lastStartTime + c1WitStream.isFinalOffset)
          * c1WitStream.rate / 1000 ≤ k
      ∧ c1WitStream.audioInputChunks.flatten.length - k
          = min (c1WitStream.audioInputChunks.flatten.length
                  - (c1WitStream.lastStartTime + c1WitStream.isFinalOffset)
                    * c1WitStream.rate / 1000)
                (3 * c1WitStream.rate)
      ∧ c1WitStream.audioInputChunks.flatten.length - k
          ≤ 3 * c1WitStream.rate :=
  c1_replay_integrity 3 c1WitStream ⟨8, rfl⟩ (by decide) (by decide) (by decide)

/-- Concrete stream for the C7 counterexample: a final landed at offset
5000 ms at some point, and no new final ever occurs afterwards
(`is_final_offset` is never reset). -/
def c7Stream : Stream := { rate := 8000, chunkSize := 1600, isFinalOffset := 5000 }

/-- **C7 (counterexample).**  The claim says `last_start_time` advances by
`is_final_offset` *only when a final occurred since the previous restart*.
The generator never resets `is_final_offset`: after a first restart advances
`last_start_time` to 5000, a second restart — with no recognition result, no
final, and nothing at all happening to the stream in between — advances it
again by the same stale 5000 to 10000. -/
theorem c7_restart_readvance :
    (generatorRun 3 c7Stream).2.lastStartTime = 5000
      ∧ (generatorRun 3 (generatorRun 3 c7Stream).2).2.lastStartTime = 10000
      ∧ (generatorRun 3 c7Stream).2.isFinalOffset = 5000 := by
  simp only [generatorRun_eq_int]
  decide

/-- **C7 (amended).**  Across any generator invocation `last_start_time` is
non-decreasing; every restart (not only one following a final) advances it by
exactly the current `is_final_offset` and clears `is_final`; and
`is_final_offset` itself is left unchanged by the restart, so a restart with
no intervening final re-advances by the previous final's offset. -/
theorem c7_last_start_time (ml : Nat) (s : Stream) :
    s.lastStartTime ≤ (generatorRun ml s).2.lastStartTime
      ∧ (generatorRun ml s).2.lastStartTime
          = s.lastStartTime + s.isFinalOffset
      ∧ (generatorPrologue ml s).2.isFinal = false
      ∧ (generatorRun ml s).2.isFinalOffset = s.isFinalOffset := by
  have hrun : (generatorRun ml s).2
      = (generatorConsume (generatorPrologueInt ml s).2).2 := by
    rw [generatorRun_eq_int]
  have hcons := generatorConsume_preserves (generatorPrologueInt ml s).2
  have hpro := generatorPrologueInt_snd ml s
  refine ⟨?_, ?_, ?_, ?_⟩
  · rw [hrun, hcons.1, hpro]
    exact Nat.le_add_right _ _
  · rw [hrun, hcons.1, hpro]
  · rw [generatorPrologue_eq, hpro]
  · rw [hrun, hcons.2, hpro]

/-! ## The recognition worker RPC session
(`DialogflowAPI.streaming_analyze_content`) -/

/-- The gRPC error classes distinguished by the `except` clauses of
`streaming_analyze_content` (`dialogflow_api.py:252-275`). -/
inductive GrpcError where
  | outOfRange
  | failedPrecondition
  | resourceExhausted
  | other
deriving DecidableEq, Repr

/-- A streaming response carrying a `recognition_result`
(responses without one only produce log lines and leave the stream alone). -/
structure RecognitionResult where
  transcript : String
  isFinal : Bool
  speechEndOffsetSeconds : Nat
  speechEndOffsetMicros : Nat
deriving DecidableEq, Repr

/-- The body of the `for response in responses` loop
(`dialogflow_api.py:278-327`): a stripped transcript shorter than 2
characters is skipped entirely; otherwise `speech_end_offset` is mirrored
(seconds only, times 1000), and a final result sets `is_final` and records
`is_final_offset = int(seconds * 1000 + microseconds / 1000)`. -/
def processResponse (s : Stream) (r : RecognitionResult) : Stream :=
  if r.transcript.trim.length < 2 then s
  else
    let s1 := { s with speechEndOffset := r.speechEndOffsetSeconds * 1000 }
    if r.isFinal then
      { s1 with isFinal := true,
                isFinalOffset := r.speechEndOffsetSeconds * 1000
                  + r.speechEndOffsetMicros / 1000 }
    else s1

/-- What the provider does on one RPC session: either the client call that
creates the response iterator raises, or the call succeeds and the iterator
yields a list of responses, optionally ending by raising an error (the way
`OutOfRange` actually surfaces at the 120 s duration cap). -/
inductive RpcOutcome where
  | establishError (e : GrpcError)
  | streamed (rs : List RecognitionResult) (terminal : Option GrpcError)
deriving DecidableEq, Repr

/-- `DialogflowAPI.streaming_analyze_content` (`dialogflow_api.py:235-327`).
The `try/except` block wraps only the `participants_client
.streaming_analyze_content(requests=...)` call that creates the response
iterator: an exception there is logged, sets `closed = True` and returns
(`none` in the error component).  The `for response in responses` loop sits
*outside* the `try`, so an exception raised while iterating propagates out of
the function unchanged (`some e` in the error component) with no handling.
The request generator's side effects on the stream are those of one
`generatorRun`. -/
def streamingAnalyzeContent (ml : Nat) (s : Stream) (o : RpcOutcome) :
    Stream × Option GrpcError :=
  match o with
  | .establishError _ => ({ s with closed := true }, none)
  | .streamed rs terminal =>
    let s1 := (generatorRun ml s).2
    let s2 := rs.foldl processResponse s1
    (s2, terminal)

/-- A freshly opened stream, as built by `audiohook_connect`. -/
def c4Stream : Stream := { rate := 8000, chunkSize := 1600 }

/-- **C4 (code bug).**  On the RPC session whose response iterator raises
`OutOfRange` (the duration-cap error, which in the streaming API surfaces
during iteration, not at call time): the exception propagates out of
`streaming_analyze_content` and the stream's `closed` flag is *not* set —
contradicting the claim (and the except-handlers' own log text, which
describes exactly this 120-second error).  An error at call-establishment
time, by contrast, is handled as claimed: `closed` is set and nothing
propagates. -/
theorem c4_iteration_error_propagates :
    (streamingAnalyzeContent 3 c4Stream (.streamed [] (some .outOfRange))).2
        = some .outOfRange
      ∧ (streamingAnalyzeContent 3 c4Stream
          (.streamed [] (some .outOfRange))).1.closed = false
      ∧ (streamingAnalyzeContent 3 c4Stream
          (.establishError .outOfRange)).1.closed = true
      ∧ (streamingAnalyzeContent 3 c4Stream
          (.establishError .outOfRange)).2 = none := by
  simp only [streamingAnalyzeContent, generatorRun_eq_int]
  decide

/-! ## The WebSocket connection loop (`audiohook_connect`) -/

/-- The fields of an inbound control message that `audiohook_connect` reads:
`type`, `id`, `seq`, and `parameters.conversationId`.  `none` models an absent
JSON field. -/
structure ControlMsg where
  type : String
  id : Option String := none
  seq : Option Nat := none
  conversationId : Option String := none
deriving DecidableEq, Repr

/-- One WebSocket frame: a text frame (with `none` for a string that fails
`json.loads` — logged and dropped) or a binary audio frame of raw bytes. -/
inductive Frame where
  | text (msg : Option ControlMsg)
  | binary (data : List Nat)
deriving DecidableEq, Repr

/-- `audiohook_blueprint.OpenConversationState` (the parts the protocol logic
reads; thread handles are modeled by the spawn counters of `ConnState`). -/
structure OpenConvState where
  conversationName : String
  isOpened : Bool
  stopSummary : Bool
deriving DecidableEq, Repr

/-- The behavior of the collaborators `audiohook_connect` consults:
whether `get_conversation` finds the Dialogflow conversation (otherwise it is
created), and whether each worker thread `is_alive()` when a `resumed`
arrives. -/
structure ConnEnv where
  conversationExists : Bool
  agentThreadAlive : Bool
  userThreadAlive : Bool
  project : String
  locationId : String
deriving DecidableEq, Repr

/-- `dialogflow_api.create_conversation_name`. -/
def createConversationName (conversationId locationId project : String) :
    String :=
  "projects/" ++ project ++ "/locations/" ++ locationId ++ "/conversations/"
    ++ conversationId

/-- The state of one `audiohook_connect` invocation: the two per-role streams,
the protocol object, the open-conversation state (`None` until a real open),
the messages sent so far, and counters for the externally visible actions
(conversations created, worker threads started, summary tickers started,
await-subscriber threads started, `complete_conversation` calls).  `finished`
records that the receive loop was left by `break`; `errored` that an uncaught
exception (odd-length binary frame fed to `np.reshape`) killed the handler. -/
structure ConnState where
  hook : AudioHook
  customerStream : Stream
  agentStream : Stream
  openState : Option OpenConvState := none
  emitted : List OutMessage := []
  conversationsCreated : Nat := 0
  workersSpawned : Nat := 0
  summaryTickersSpawned : Nat := 0
  awaitThreadsSpawned : Nat := 0
  completeCalls : Nat := 0
  finished : Bool := false
  errored : Bool := false
deriving DecidableEq, Repr

/-- `ws.send(json.dumps(audiohook.create_<t>_message()))`. -/
def sendMsg (c : ConnState) (t : String) : ConnState :=
  let (m, hook1) := c.hook.createMessageByType t
  { c with hook := hook1, emitted := c.emitted ++ [m] }

/-- `process_open_conversation_message`
(`audiohook_blueprint.py:244-325`): fetch the profile, get-or-create the
conversation (named `a` + conversationId under the configured project and
location), ensure participants, start the two recognition worker threads and
the summary ticker, then send `opened`. -/
def processOpenConversation (env : ConnEnv) (c : ConnState)
    (conversationId : String) : ConnState :=
  let created := if env.conversationExists then 0 else 1
  let st : OpenConvState :=
    { conversationName :=
        createConversationName ("a" ++ conversationId) env.locationId
          env.project,
      isOpened := true, stopSummary := false }
  sendMsg
    { c with conversationsCreated := c.conversationsCreated + created,
             workersSpawned := c.workersSpawned + 2,
             summaryTickersSpawned := c.summaryTickersSpawned + 1,
             openState := some st } "opened"

/-- `process_ongoing_conversation_messages`
(`audiohook_blueprint.py:328-404`), reached only once a real conversation is
open: `resumed` clears both `closed` gates and restarts any dead worker;
`paused` sets both `closed` gates; `close` closes and terminates both streams,
stops the ticker, sends `closed`, calls `complete_conversation` and ends the
loop; `discarded` (and anything else) only logs. -/
def processOngoing (env : ConnEnv) (c : ConnState) (m : ControlMsg) :
    ConnState :=
  if m.type = "resumed" then
    { c with customerStream := { c.customerStream with closed := false },
             agentStream := { c.agentStream with closed := false },
             workersSpawned := c.workersSpawned
               + (if env.agentThreadAlive then 0 else 1)
               + (if env.userThreadAlive then 0 else 1) }
  else if m.type = "paused" then
    { c with customerStream := { c.customerStream with closed := true },
             agentStream := { c.agentStream with closed := true } }
  else if m.type = "close" then
    let c1 :=
      { c with
        agentStream := { c.agentStream with closed := true, terminate := true },
        customerStream :=
          { c.customerStream with closed := true, terminate := true },
        openState := c.openState.map (fun st => { st with stopSummary := true }) }
    { sendMsg c1 "closed" with completeCalls := c.completeCalls + 1,
                               finished := true }
  else c

/-- Column `col` of the `(len/2, 2)` numpy reshape of a byte buffer
(`np.frombuffer(...).reshape((len/2, 2))[:, col]`). -/
def reshapeColumn (data : List Nat) (col : Nat) : List Nat :=
  (List.range (data.length / 2)).map (fun i => data.getD (2 * i + col) 0)

/-- `audiohook.set_session_id(json_message.get("id", 0))` followed by
`audiohook.set_client_sequence(json_message.get("seq"))`
(`audiohook_blueprint.py:466-467`). -/
def updateHookFromMsg (h : AudioHook) (m : ControlMsg) : AudioHook :=
  (h.setSessionId
      (match m.id with | some s => .str s | none => .int 0)).setClientSequence
    (match m.seq with | some n => .int n | none => .pyNone)

/-- One iteration of the `while True` receive loop of `audiohook_connect`
(`audiohook_blueprint.py:436-554`) on one frame. -/
def connStep (env : ConnEnv) (c : ConnState) (f : Frame) : ConnState :=
  if c.finished || c.errored then c
  else
    match f with
    | .text none => c
    | .text (some m) =>
      let conversationId := m.conversationId.getD DEFAULT_CONVERSATION_ID
      let c1 := { c with hook := updateHookFromMsg c.hook m }
      if m.type = "open" then
        if conversationId = DEFAULT_CONVERSATION_ID then
          sendMsg c1 "opened"
        else if c1.openState.isNone then
          { processOpenConversation env c1 conversationId with
              awaitThreadsSpawned := c.awaitThreadsSpawned + 1 }
        else c1
      else if m.type = "ping" then
        sendMsg c1 "pong"
      else if m.type = "close" && c1.openState.isNone then
        { sendMsg c1 "closed" with finished := true }
      else
        match c1.openState with
        | some _ => processOngoing env c1 m
        | none => c1
    | .binary data =>
      match c.openState with
      | some _ =>
        if data.length % 2 = 0 then
          { c with
            customerStream := c.customerStream.fillBuffer (reshapeColumn data 0),
            agentStream := c.agentStream.fillBuffer (reshapeColumn data 1) }
        else
          { c with errored := true, finished := true }
      | none => c

/-- Fold the receive loop over a list of frames. -/
def runConn (env : ConnEnv) (c : ConnState) : List Frame → ConnState
  | [] => c
  | f :: fs => runConn env (connStep env c f) fs

/-- The state of `audiohook_connect` right after the WebSocket is accepted:
two fresh streams built from `config.rate` and `config.chunk_size` and a
fresh `AudioHook`. -/
def initConnState : ConnState :=
  { hook := AudioHook.init,
    customerStream := { rate := 8000, chunkSize := 1600 },
    agentStream := { rate := 8000, chunkSize := 1600 } }

/-- On a state with no open conversation, a frame whose `open` (if it is one)
is a probe leaves the connection inert: no conversation, no workers, no
ticker, and at most one new outbound message, of type `opened`, `pong` or
`closed`. -/
theorem connStep_probe_inv (env : ConnEnv) (c : ConnState) (f : Frame)
    (hc : c.openState = none)
    (hf : ∀ m, f = Frame.text (some m) → m.type = "open" →
        m.conversationId.getD DEFAULT_CONVERSATION_ID
          = DEFAULT_CONVERSATION_ID) :
    (connStep env c f).openState = none
      ∧ (connStep env c f).conversationsCreated = c.conversationsCreated
      ∧ (connStep env c f).workersSpawned = c.workersSpawned
      ∧ (connStep env c f).summaryTickersSpawned = c.summaryTickersSpawned
      ∧ ∀ msg ∈ (connStep env c f).emitted,
          msg ∈ c.emitted ∨ msg.type = "opened" ∨ msg.type = "pong"
            ∨ msg.type = "closed" := by
  unfold connStep
  by_cases hfin : (c.finished || c.errored) = true
  · rw [if_pos hfin]
    exact ⟨hc, rfl, rfl, rfl, fun msg hm => Or.inl hm⟩
  · rw [if_neg hfin]
    cases f with
    | binary data =>
      dsimp only
      rw [hc]
      exact ⟨hc, rfl, rfl, rfl, fun msg hm => Or.inl hm⟩
    | text om =>
      cases om with
      | none => exact ⟨hc, rfl, rfl, rfl, fun msg hm => Or.inl hm⟩
      | some m =>
        dsimp only
        by_cases hopen : m.type = "open"
        · rw [if_pos hopen, if_pos (hf m rfl hopen)]
          refine ⟨hc, rfl, rfl, rfl, ?_⟩
          intro msg hm
          simp only [sendMsg, AudioHook.createMessageByType] at hm
          rcases List.mem_append.mp hm with h | h
          · exact Or.inl h
          · right
            left
            rw [List.mem_singleton.mp h]
        · rw [if_neg hopen]
          by_cases hping : m.type = "ping"
          · rw [if_pos hping]
            refine ⟨hc, rfl, rfl, rfl, ?_⟩
            intro msg hm
            simp only [sendMsg, AudioHook.createMessageByType] at hm
            rcases List.mem_append.mp hm with h | h
            · exact Or.inl h
            · right
              right
              left
              rw [List.mem_singleton.mp h]
          · rw [if_neg hping]
            by_cases hclose : (m.type = "close"
                && (Option.isNone c.openState : Bool)) = true
            · rw [if_pos hclose]
              refine ⟨hc, rfl, rfl, rfl, ?_⟩
              intro msg hm
              simp only [sendMsg, AudioHook.createMessageByType] at hm
              rcases List.mem_append.mp hm with h | h
              · exact Or.inl h
              · right
                right
                right
                rw [List.mem_singleton.mp h]
            · rw [if_neg hclose, hc]
              exact ⟨rfl, rfl, rfl, rfl, fun msg hm => Or.inl hm⟩

/-- All states reachable from a no-open-conversation state by probe-only
frames keep the connection inert. -/
theorem runConn_probe_inv (env : ConnEnv) (c : ConnState) (fs : List Frame)
    (hc : c.openState = none)
    (hf : ∀ m, Frame.text (some m) ∈ fs → m.type = "open" →
        m.conversationId.getD DEFAULT_CONVERSATION_ID
          = DEFAULT_CONVERSATION_ID) :
    (runConn env c fs).openState = none
      ∧ (runConn env c fs).conversationsCreated = c.conversationsCreated
      ∧ (runConn env c fs).workersSpawned = c.workersSpawned
      ∧ (runConn env c fs).summaryTickersSpawned = c.summaryTickersSpawned
      ∧ ∀ msg ∈ (runConn env c fs).emitted,
          msg ∈ c.emitted ∨ msg.type = "opened" ∨ msg.type = "pong"
            ∨ msg.type = "closed" := by
  induction fs generalizing c with
  | nil => exact ⟨hc, rfl, rfl, rfl, fun msg hm => Or.inl hm⟩
  | cons f fs ih =>
    have hstep := connStep_probe_inv env c f hc
      (fun m hm => hf m (by rw [hm]; exact List.mem_cons_self _ _))
    have hrest := ih (connStep env c f) hstep.1
      (fun m hm => hf m (List.mem_cons_of_mem _ hm))
    refine ⟨hrest.1, ?_, ?_, ?_, ?_⟩
    · rw [show runConn env c (f :: fs) = runConn env (connStep env c f) fs
        from rfl, hrest.2.1, hstep.2.1]
    · rw [show runConn env c (f :: fs) = runConn env (connStep env c f) fs
        from rfl, hrest.2.2.1, hstep.2.2.1]
    · rw [show runConn env c (f :: fs) = runConn env (connStep env c f) fs
        from rfl, hrest.2.2.2.1, hstep.2.2.2.1]
    · intro msg hm
      rcases hrest.2.2.2.2 msg hm with h | h
      · rcases hstep.2.2.2.2 msg h with h2 | h2
        · exact Or.inl h2
        · exact Or.inr h2
      · exact Or.inr h

/-- A fixed collaborator environment for concrete runs. -/
def env0 : ConnEnv :=
  { conversationExists := false, agentThreadAlive := true,
    userThreadAlive := true, project := "p", locationId := "global" }

/-- A probe connection that also sends a `ping`:
`open` (all-zero UUID), `ping`, `close`. -/
def c3Trace : List Frame :=
  [.text (some { type := "open", id := some "u1", seq := some 1,
                 conversationId := some DEFAULT_CONVERSATION_ID }),
   .text (some { type := "ping", id := some "u1", seq := some 2 }),
   .text (some { type := "close", id := some "u1", seq := some 3 })]

/-- **C3 (counterexample).**  The claim says that on a connection whose every
`open` is an all-zero-UUID probe, the *only* messages ever emitted are
`opened` followed by `closed`.  A probe connection that also sends a `ping`
(which the protocol requires the server to answer) receives
`opened, pong, closed`: `pong` is emitted too. -/
theorem c3_pong_on_probe :
    ((runConn env0 initConnState c3Trace).emitted.map OutMessage.type)
        = ["opened", "pong", "closed"]
      ∧ ¬ (∀ t ∈ (runConn env0 initConnState c3Trace).emitted.map
            OutMessage.type, t = "opened" ∨ t = "closed") := by
  decide

/-- **C3 (amended).**  On any connection in which every `open` carries the
all-zero conversation UUID (explicitly or because `conversationId` is
absent), no Dialogflow conversation is ever created, no recognition worker
thread and no summary ticker is ever spawned, the open-conversation state
stays `None`, and the only messages ever emitted are `opened` (one per probe
`open`), `pong` (one per `ping`), and `closed`. -/
theorem c3_probe_inertness (env : ConnEnv) (fs : List Frame)
    (hf : ∀ m, Frame.text (some m) ∈ fs → m.type = "open" →
        m.conversationId.getD DEFAULT_CONVERSATION_ID
          = DEFAULT_CONVERSATION_ID) :
    (runConn env initConnState fs).openState = none
      ∧ (runConn env initConnState fs).conversationsCreated = 0
      ∧ (runConn env initConnState fs).workersSpawned = 0
      ∧ (runConn env initConnState fs).summaryTickersSpawned = 0
      ∧ ∀ msg ∈ (runConn env initConnState fs).emitted,
          msg.type = "opened" ∨ msg.type = "pong" ∨ msg.type = "closed" := by
  have h := runConn_probe_inv env initConnState fs rfl hf
  refine ⟨h.1, h.2.1, h.2.2.1, h.2.2.2.1, ?_⟩
  intro msg hm
  rcases h.2.2.2.2 msg hm with h2 | h2
  · exact absurd h2 (List.not_mem_nil msg)
  · exact h2

theorem c3_probe_inertness_witness :
    (runConn env0 initConnState c3Trace).openState = none
      ∧ (runConn env0 initConnState c3Trace).conversationsCreated = 0
      ∧ (runConn env0 initConnState c3Trace).workersSpawned = 0
      ∧ (runConn env0 initConnState c3Trace).summaryTickersSpawned = 0
      ∧ ∀ msg ∈ (runConn env0 initConnState c3Trace).emitted,
          msg.type = "opened" ∨ msg.type = "pong" ∨ msg.type = "closed" :=
  c3_probe_inertness env0 c3Trace (by
    intro m hm hopen
    simp only [c3Trace, List.mem_cons, List.not_mem_nil, or_false] at hm
    rcases hm with h | h | h <;>
      (injection h with h2
       injection h2 with h3
       subst h3
       rfl))

/-- The bytes at even indices 0, 2, 4, … of a list, in order (the claim's
description of what the customer stream must receive). -/
def evenIdx : List α → List α
  | [] => []
  | [a] => [a]
  | a :: _ :: t => a :: evenIdx t

/-- The bytes at odd indices 1, 3, 5, … of a list, in order (the claim's
description of what the agent stream must receive). -/
def oddIdx : List α → List α
  | [] => []
  | [_] => []
  | _ :: b :: t => b :: oddIdx t

theorem reshapeColumn_cons0 (a b : Nat) (t : List Nat) :
    reshapeColumn (a :: b :: t) 0 = a :: reshapeColumn t 0 := by
  unfold reshapeColumn
  have h2 : (a :: b :: t).length / 2 = t.length / 2 + 1 := by
    simp only [List.length_cons]
    omega
  rw [h2, List.range_succ_eq_map, List.map_cons, List.map_map]
  congr 1

theorem reshapeColumn_cons1 (a b : Nat) (t : List Nat) :
    reshapeColumn (a :: b :: t) 1 = b :: reshapeColumn t 1 := by
  unfold reshapeColumn
  have h2 : (a :: b :: t).length / 2 = t.length / 2 + 1 := by
    simp only [List.length_cons]
    omega
  rw [h2, List.range_succ_eq_map, List.map_cons, List.map_map]
  congr 1

/-- The two columns of the numpy `(N, 2)` reshape of an even-length byte list
are exactly the even-indexed and odd-indexed bytes, in order. -/
theorem reshapeColumn_even_odd (n : Nat) :
    ∀ data : List Nat, data.length = 2 * n →
      reshapeColumn data 0 = evenIdx data
        ∧ reshapeColumn data 1 = oddIdx data := by
  induction n with
  | zero =>
    intro data h
    have hnil : data = [] := List.eq_nil_of_length_eq_zero (by omega)
    subst hnil
    exact ⟨rfl, rfl⟩
  | succ n ih =>
    intro data h
    rcases data with _ | ⟨a, _ | ⟨b, t⟩⟩
    · simp at h
    · simp only [List.length_cons, List.length_nil] at h
      omega
    · have ht : t.length = 2 * n := by
        simp only [List.length_cons] at h
        omega
      obtain ⟨h0, h1⟩ := ih t ht
      constructor
      · rw [reshapeColumn_cons0, h0]
        rfl
      · rw [reshapeColumn_cons1, h1]
        rfl

/-- **C9 (theorem).**  While a real conversation is open, a binary frame of
length `2N` appends exactly the even-indexed bytes (in order) to the customer
stream's queue and exactly the odd-indexed bytes (in order) to the agent
stream's queue. -/
theorem c9_interleave_correct (env : ConnEnv) (c : ConnState)
    (data : List Nat) (n : Nat)
    (hopen : c.openState.isSome = true) (hfin : c.finished = false)
    (herr : c.errored = false) (hlen : data.length = 2 * n) :
    (connStep env c (.binary data)).customerStream.buff
        = c.customerStream.buff ++ [some (evenIdx data)]
      ∧ (connStep env c (.binary data)).agentStream.buff
        = c.agentStream.buff ++ [some (oddIdx data)] := by
  obtain ⟨st, hst⟩ := Option.isSome_iff_exists.mp hopen
  obtain ⟨h0, h1⟩ := reshapeColumn_even_odd n data hlen
  unfold connStep
  rw [hfin, herr, if_neg (by decide), hst]
  dsimp only
  rw [if_pos (by omega)]
  unfold Stream.fillBuffer
  rw [h0, h1]
  exact ⟨rfl, rfl⟩

/-- A connection state with a real conversation open, for concrete runs. -/
def c9State : ConnState :=
  { initConnState with
      openState := some { conversationName := "projects/p/conversations/aabc",
                          isOpened := true, stopSummary := false } }

theorem c9_interleave_correct_witness :
    (connStep env0 c9State (.binary [10, 20, 30, 40])).customerStream.buff
        = c9State.customerStream.buff ++ [some (evenIdx [10, 20, 30, 40])]
      ∧ (connStep env0 c9State (.binary [10, 20, 30, 40])).agentStream.buff
        = c9State.agentStream.buff ++ [some (oddIdx [10, 20, 30, 40])] :=
  c9_interleave_correct env0 c9State [10, 20, 30, 40] 2 (by decide) (by decide)
    (by decide) (by decide)

/-- **C10 (theorem).**  An `open` whose `parameters` bag has no
`conversationId` defaults to the all-zero UUID
(`json_message.get("parameters", {}).get("conversationId",
DEFAULT_CONVERSATION_ID)`), so the step is *identical* to the step on the
same message with the all-zero UUID spelled out: the server replies `opened`,
creates no conversation, spawns no workers, and leaves the open-conversation
state unchanged. -/
theorem c10_missing_conversation_id (env : ConnEnv) (c : ConnState)
    (m : ControlMsg) (ht : m.type = "open") (hcid : m.conversationId = none)
    (hfin : c.finished = false) (herr : c.errored = false) :
    connStep env c (.text (some m))
        = connStep env c (.text (some
            { m with conversationId := some DEFAULT_CONVERSATION_ID }))
      ∧ ((connStep env c (.text (some m))).emitted.map OutMessage.type)
          = (c.emitted.map OutMessage.type) ++ ["opened"]
      ∧ (connStep env c (.text (some m))).openState = c.openState
      ∧ (connStep env c (.text (some m))).conversationsCreated
          = c.conversationsCreated
      ∧ (connStep env c (.text (some m))).workersSpawned = c.workersSpawned := by
  have key : ∀ mm : ControlMsg, mm.type = "open" →
      mm.conversationId.getD DEFAULT_CONVERSATION_ID
        = DEFAULT_CONVERSATION_ID →
      connStep env c (.text (some mm))
        = sendMsg { c with hook := updateHookFromMsg c.hook mm } "opened" := by
    intro mm htype hdef
    unfold connStep
    rw [hfin, herr, if_neg (by decide)]
    dsimp only
    rw [htype, if_pos rfl, hdef, if_pos rfl]
  have h1 := key m ht (by rw [hcid]; rfl)
  have h2 := key { m with conversationId := some DEFAULT_CONVERSATION_ID }
    ht rfl
  refine ⟨h1.trans h2.symm, ?_, ?_, ?_, ?_⟩
  · rw [h1]
    simp only [sendMsg, AudioHook.createMessageByType, List.map_append]
    rfl
  · rw [h1]
    rfl
  · rw [h1]
    rfl
  · rw [h1]
    rfl

/-- A concrete `open` with no `conversationId` in the parameters bag. -/
def c10Msg : ControlMsg := { type := "open", id := some "u1", seq := some 1 }

theorem c10_missing_conversation_id_witness :
    connStep env0 initConnState (.text (some c10Msg))
        = connStep env0 initConnState (.text (some
            { c10Msg with conversationId := some DEFAULT_CONVERSATION_ID }))
      ∧ ((connStep env0 initConnState (.text (some c10Msg))).emitted.map
          OutMessage.type)
          = (initConnState.emitted.map OutMessage.type) ++ ["opened"]
      ∧ (connStep env0 initConnState (.text (some c10Msg))).openState
          = initConnState.openState
      ∧ (connStep env0 initConnState (.text (some c10Msg))).conversationsCreated
          = initConnState.conversationsCreated
      ∧ (connStep env0 initConnState (.text (some c10Msg))).workersSpawned
          = initConnState.workersSpawned :=
  c10_missing_conversation_id env0 initConnState c10Msg rfl rfl rfl rfl

/-! ## Conversation-name normalization and the summarization ticker

String manipulation from the source is embedded over character lists:
`str.split('/')`, substring containment (`in`), and
`str.replace('/locations/global', '')` become structural recursions so that
concrete instances evaluate inside the kernel. -/

/-- Python `s.split('/')` (splits at every slash, keeping empty pieces). -/
def splitOnSlash : List Char → List (List Char)
  | [] => [[]]
  | c :: t =>
    if c = '/' then [] :: splitOnSlash t
    else
      match splitOnSlash t with
      | [] => [[c]]
      | h :: r => (c :: h) :: r

/-- Python `pat in s` (substring containment). -/
def containsPat (pat : List Char) : List Char → Bool
  | [] => pat.isEmpty
  | s@(_ :: t) => pat.isPrefixOf s || containsPat pat t

/-- `s.replace(pat, '')` scanning left to right, with a step-count bound.
Each step consumes at least one character, so `fuel = s.length` never runs
out; the bound only makes the recursion structural (the kernel can then
evaluate it).  Only non-empty patterns are ever used. -/
def removeAllFuel (pat : List Char) : Nat → List Char → List Char
  | 0, s => s
  | _ + 1, [] => []
  | fuel + 1, x :: t =>
    if pat.isPrefixOf (x :: t) then
      removeAllFuel pat fuel (List.drop (pat.length - 1) t)
    else
      x :: removeAllFuel pat fuel t

/-- Python `s.replace(pat, '')` for a non-empty `pat`: remove every
(non-overlapping, leftmost-first) occurrence. -/
def removeAll (s pat : List Char) : List Char :=
  removeAllFuel pat s.length s

/-- The ticker's normalization (`audiohook_blueprint.py:165`):
`conversation_name.replace('/locations/global', '')`. -/
def tickerNormalizeL (s : List Char) : List Char :=
  removeAll s "/locations/global".toList

/-- `tickerNormalizeL`, packaged on `String`s. -/
def tickerNormalize (s : String) : String :=
  (tickerNormalizeL s.toList).asString

/-- `dialogflow_api.determine_conversation_name_without_location`
(`dialogflow_api.py:402-409`): if `'/locations/'` occurs in the name, split
on `'/'` and keep the pieces at indices `0, 1, -2, -1`. -/
def determineNameWithoutLocationL (name : List Char) : List Char :=
  if containsPat "/locations/".toList name then
    let nameArray := splitOnSlash name
    List.intercalate "/".toList
      [nameArray.getD 0 [], nameArray.getD 1 [],
       nameArray.getD (nameArray.length - 2) [],
       nameArray.getD (nameArray.length - 1) []]
  else name

/-- `determineNameWithoutLocationL`, packaged on `String`s. -/
def determineConversationNameWithoutLocation (name : String) : String :=
  (determineNameWithoutLocationL name.toList).asString

/-- Python `s.split('/')[-1]`. -/
def lastSlashSegment (s : String) : String :=
  ((splitOnSlash s.toList).getD ((splitOnSlash s.toList).length - 1) []).asString

/-- `conversation_id[1:] if conversation_id.startswith('a') else
conversation_id` (`audiohook_blueprint.py:188-191`). -/
def stripAPrefix (s : String) : String :=
  if s.startsWith "a" then s.drop 1 else s

mutual
/-- A JSON value, as far as the ticker's payloads need one (objects carry
their fields as a `JFields` chain so that recursion over values stays
structural and kernel-evaluable). -/
inductive JVal where
  | str (s : String)
  | num (n : Nat)
  | obj (fields : JFields)
/-- The field list of a JSON object. -/
inductive JFields where
  | nil
  | cons (key : String) (value : JVal) (rest : JFields)
end

mutual
/-- Whether a key occurs anywhere in a JSON value, nested objects included.
The `data` field of the broker message, which the code serializes with
`json.dumps`, is kept structured here; key occurrence is invariant under
serialization. -/
def JVal.mentionsKey : JVal → String → Bool
  | .str _, _ => false
  | .num _, _ => false
  | .obj fields, k => JFields.mentionsKey fields k
/-- `JVal.mentionsKey` over a field list. -/
def JFields.mentionsKey : JFields → String → Bool
  | .nil, _ => false
  | .cons k0 v rest, k =>
    k0 == k || JVal.mentionsKey v k || JFields.mentionsKey rest k
end

/-- The messages one summarization tick hands to the two publishers:
`redis_client.publish(channel, …)` pairs and `publisher.publish(topic, …)`
pairs. -/
structure TickResult where
  redisPublishes : List (String × JVal)
  pubsubPublishes : List (String × JVal)

/-- `audiohook_blueprint.PUBSUB_TOPIC`. -/
def PUBSUB_TOPIC (project : String) : String :=
  "projects/" ++ project ++ "/topics/dematic-aa-conversation-event-topic"

/-- One wake-up of `periodic_conversation_summary`
(`audiohook_blueprint.py:168-237`) that is past its sleep and stop check:
given the summary the Dialogflow endpoint returned (`none` when
`summary_response` or its `summary` is falsy — then nothing is published),
the routing state of the broker (`redis_client.get`, `none` for no entry,
and an entry is used only if its value is truthy, i.e. non-empty), and the
running `summary_count`.  With a routing entry `H` the summary goes to the
broker channel `H ++ ":" ++ stripped_name` with the `data`-envelope message;
without one, the `summary_event` payload goes to the durable Pub/Sub topic. -/
def periodicSummaryTick (project : String) (conversationName : String)
    (routing : String → Option String) (summary : Option String)
    (summaryCount : Nat) : TickResult :=
  match summary with
  | none => ⟨[], []⟩
  | some summaryText =>
    let conversationNameWithoutLocation := tickerNormalize conversationName
    let conversationId := lastSlashSegment conversationNameWithoutLocation
    let genesysConversationId := stripAPrefix conversationId
    let summaryEvent : JVal := .obj
      (.cons "conversationName" (.str conversationName)
        (.cons "genesysConversationId" (.str genesysConversationId)
          (.cons "summary" (.str summaryText)
            (.cons "summaryCount" (.num summaryCount) .nil))))
    match routing conversationNameWithoutLocation with
    | some serverId =>
      if serverId ≠ "" then
        let channel := serverId ++ ":" ++ conversationNameWithoutLocation
        let message : JVal := .obj
          (.cons "conversation_name" (.str conversationNameWithoutLocation)
            (.cons "genesys_conversation_id" (.str genesysConversationId)
              (.cons "data" (.obj
                  (.cons "conversationName" (.str conversationName)
                    (.cons "genesysConversationId" (.str genesysConversationId)
                      (.cons "payload" (.obj
                          (.cons "summary" (.obj
                              (.cons "text" (.str summaryText)
                                (.cons "textSections" (.obj .nil) .nil)))
                            .nil))
                        .nil))))
                (.cons "data_type" (.str "conversation-summarization-received")
                  .nil))))
        ⟨[(channel, message)], []⟩
      else
        ⟨[], [(PUBSUB_TOPIC project, summaryEvent)]⟩
    | none => ⟨[], [(PUBSUB_TOPIC project, summaryEvent)]⟩

/-- **C5 (theorem).**  For a tick that produces a summary: with no routing
entry for the stripped conversation name, exactly one message is published to
the durable topic and none to the broker; with a routing entry holding a
(non-empty) hub id `H`, exactly one message is published to the broker
channel `H ++ ":" ++ strippedName` and none to the durable topic. -/
theorem c5_summary_fallback (project name text : String)
    (routing : String → Option String) (count : Nat) :
    (routing (tickerNormalize name) = none →
        (periodicSummaryTick project name routing (some text) count).pubsubPublishes.length = 1
          ∧ (periodicSummaryTick project name routing (some text) count).redisPublishes = [])
      ∧ ∀ hubId, routing (tickerNormalize name) = some hubId → hubId ≠ "" →
          ((periodicSummaryTick project name routing (some text) count).redisPublishes.map Prod.fst
            = [hubId ++ ":" ++ tickerNormalize name])
          ∧ (periodicSummaryTick project name routing (some text) count).pubsubPublishes = [] := by
  constructor
  · intro hnone
    unfold periodicSummaryTick
    dsimp only
    rw [hnone]
    exact ⟨rfl, rfl⟩
  · intro hubId hsome hne
    unfold periodicSummaryTick
    dsimp only
    rw [hsome]
    dsimp only
    rw [if_pos hne]
    exact ⟨rfl, rfl⟩

/-- A routing table holding hub id `hub1-123` for the stripped name of the
witness conversation. -/
def c5Routing : String → Option String := fun k =>
  if k = "projects/p/conversations/aabc" then some "hub1-123" else none

/-- An empty routing table. -/
def emptyRouting : String → Option String := fun _ => none

theorem c5_summary_fallback_witness :
    ((periodicSummaryTick "p" "projects/p/locations/global/conversations/aabc" emptyRouting (some "hi") 1).pubsubPublishes.length = 1
        ∧ (periodicSummaryTick "p" "projects/p/locations/global/conversations/aabc" emptyRouting (some "hi") 1).redisPublishes = [])
      ∧ ((periodicSummaryTick "p" "projects/p/locations/global/conversations/aabc" c5Routing (some "hi") 1).redisPublishes.map Prod.fst
          = ["hub1-123" ++ ":" ++ tickerNormalize "projects/p/locations/global/conversations/aabc"])
        ∧ (periodicSummaryTick "p" "projects/p/locations/global/conversations/aabc" c5Routing (some "hi") 1).pubsubPublishes = [] :=
  ⟨(c5_summary_fallback "p" "projects/p/locations/global/conversations/aabc"
      "hi" emptyRouting 1).1 rfl,
   (c5_summary_fallback "p" "projects/p/locations/global/conversations/aabc"
      "hi" c5Routing 1).2 "hub1-123" (by decide) (by decide)⟩

/-- **C8 (counterexample).**  The claim says every summary message the ticker
publishes — on the broker routing channel as well as on the durable topic —
includes the running `summary_count`.  On a tick with a routing entry present,
exactly one broker message is published, and it mentions neither
`summaryCount` nor `summary_count` anywhere (its fields are
`conversation_name`, `genesys_conversation_id`, `data` and `data_type`; the
`data` envelope holds only the name, id and summary text). -/
theorem c8_broker_message_lacks_count :
    ((periodicSummaryTick "p" "projects/p/locations/global/conversations/aabc" c5Routing (some "hi") 1).redisPublishes.map
        (fun pr => pr.2.mentionsKey "summaryCount" || pr.2.mentionsKey "summary_count"))
      = [false]
    ∧ (periodicSummaryTick "p" "projects/p/locations/global/conversations/aabc" c5Routing (some "hi") 1).pubsubPublishes.length = 0 := by
  decide

/-- **C8 (amended).**  Only the durable-topic payload carries the running
count: every message a tick publishes to the durable fallback topic includes
`summaryCount`, and every message it publishes on the broker routing channel
includes neither `summaryCount` nor `summary_count`. -/
theorem c8_count_only_on_durable (project name text : String)
    (routing : String → Option String) (count : Nat) :
    (∀ pr ∈ (periodicSummaryTick project name routing (some text) count).pubsubPublishes,
        pr.2.mentionsKey "summaryCount" = true)
      ∧ ∀ pr ∈ (periodicSummaryTick project name routing (some text) count).redisPublishes,
          (pr.2.mentionsKey "summaryCount" || pr.2.mentionsKey "summary_count") = false := by
  unfold periodicSummaryTick
  dsimp only
  rcases hr : routing (tickerNormalize name) with _ | serverId
  · dsimp only
    constructor
    · intro pr hpr
      rw [List.mem_singleton.mp hpr]
      simp [JVal.mentionsKey, JFields.mentionsKey]
    · intro pr hpr
      exact absurd hpr (List.not_mem_nil pr)
  · dsimp only
    by_cases hne : serverId ≠ ""
    · rw [if_pos hne]
      constructor
      · intro pr hpr
        exact absurd hpr (List.not_mem_nil pr)
      · intro pr hpr
        rw [List.mem_singleton.mp hpr]
        simp [JVal.mentionsKey, JFields.mentionsKey]
    · rw [if_neg hne]
      constructor
      · intro pr hpr
        rw [List.mem_singleton.mp hpr]
        simp [JVal.mentionsKey, JFields.mentionsKey]
      · intro pr hpr
        exact absurd hpr (List.not_mem_nil pr)

/-! ### Step lemmas for the scan-based `replace` and for `split('/')` -/

theorem removeAllFuel_congr (pat : List Char) (f1 : Nat) :
    ∀ (f2 : Nat) (s : List Char), s.length ≤ f1 → s.length ≤ f2 →
      removeAllFuel pat f1 s = removeAllFuel pat f2 s := by
  induction f1 with
  | zero =>
    intro f2 s h1 h2
    have hnil : s = [] := List.eq_nil_of_length_eq_zero (by omega)
    subst hnil
    cases f2 <;> rfl
  | succ f1 ih =>
    intro f2 s h1 h2
    cases s with
    | nil => cases f2 <;> rfl
    | cons x t =>
      have ht : t.length ≤ f1 := by
        simp only [List.length_cons] at h1
        omega
      cases f2 with
      | zero =>
        simp only [List.length_cons] at h2
        omega
      | succ f2 =>
        have ht2 : t.length ≤ f2 := by
          simp only [List.length_cons] at h2
          omega
        simp only [removeAllFuel]
        split_ifs with hp
        · exact ih f2 _ (by simp only [List.length_drop]; omega)
            (by simp only [List.length_drop]; omega)
        · rw [ih f2 t ht ht2]

theorem removeAll_cons_no_match (pat : List Char) (x : Char) (t : List Char)
    (h : pat.isPrefixOf (x :: t) = false) :
    removeAll (x :: t) pat = x :: removeAll t pat := by
  show removeAllFuel pat (t.length + 1) (x :: t) = x :: removeAllFuel pat t.length t
  simp only [removeAllFuel]
  rw [if_neg (by rw [h]; exact Bool.false_ne_true)]

theorem slash_pat_not_prefix_of_ne (pat2 : List Char) (x : Char)
    (t : List Char) (hx : x ≠ '/') :
    (('/' :: pat2).isPrefixOf (x :: t)) = false := by
  rw [List.isPrefixOf_cons₂, beq_eq_false_iff_ne.mpr (Ne.symm hx),
    Bool.false_and]

theorem removeAll_slashfree_append (pat2 a s : List Char)
    (ha : ∀ ch ∈ a, ch ≠ '/') :
    removeAll (a ++ s) ('/' :: pat2) = a ++ removeAll s ('/' :: pat2) := by
  induction a with
  | nil => rfl
  | cons x a2 ih =>
    have hx : x ≠ '/' := ha x (List.mem_cons_self x a2)
    have step := removeAll_cons_no_match ('/' :: pat2) x (a2 ++ s)
      (slash_pat_not_prefix_of_ne pat2 x (a2 ++ s) hx)
    rw [List.cons_append, step, ih (fun ch hch => ha ch (List.mem_cons_of_mem x hch))]
    rfl

theorem removeAll_slashfree_id (pat2 c : List Char)
    (hc : ∀ ch ∈ c, ch ≠ '/') :
    removeAll c ('/' :: pat2) = c := by
  have h := removeAll_slashfree_append pat2 c [] hc
  rw [List.append_nil] at h
  rw [h]
  rw [show removeAll [] ('/' :: pat2) = [] from rfl, List.append_nil]

theorem removeAll_match_head (pat2 rest : List Char) :
    removeAll ('/' :: (pat2 ++ rest)) ('/' :: pat2)
      = removeAll rest ('/' :: pat2) := by
  show removeAllFuel ('/' :: pat2) ((pat2 ++ rest).length + 1)
      ('/' :: (pat2 ++ rest)) = removeAllFuel ('/' :: pat2) rest.length rest
  simp only [removeAllFuel]
  rw [if_pos (by
    rw [List.isPrefixOf_iff_prefix]
    exact List.prefix_append ('/' :: pat2) rest)]
  rw [show ('/' :: pat2).length - 1 = pat2.length from by simp, List.drop_left]
  exact removeAllFuel_congr ('/' :: pat2) _ _ rest
    (by simp only [List.length_append]; omega) (Nat.le_refl _)

theorem pat_not_prefix_of_slashfree (pat2 c : List Char)
    (hslash : '/' ∈ pat2) (hc : ∀ ch ∈ c, ch ≠ '/') :
    pat2.isPrefixOf c = false := by
  cases hb : pat2.isPrefixOf c with
  | false => rfl
  | true =>
    rw [List.isPrefixOf_iff_prefix] at hb
    exact absurd rfl (hc '/' (hb.sublist.subset hslash))

theorem containsPat_of_append (pat : List Char) (q : Char) (qt : List Char)
    (a b : List Char) (hpat : pat = q :: qt) :
    containsPat pat (a ++ (pat ++ b)) = true := by
  induction a with
  | nil =>
    subst hpat
    show containsPat (q :: qt) (q :: (qt ++ b)) = true
    unfold containsPat
    have hpre : ((q :: qt).isPrefixOf (q :: (qt ++ b))) = true := by
      rw [List.isPrefixOf_iff_prefix]
      exact List.prefix_append (q :: qt) b
    rw [hpre, Bool.true_or]
  | cons x a2 ih =>
    show containsPat pat (x :: (a2 ++ (pat ++ b))) = true
    unfold containsPat
    rw [ih, Bool.or_true]

theorem splitOnSlash_slashfree (c : List Char) (hc : ∀ ch ∈ c, ch ≠ '/') :
    splitOnSlash c = [c] := by
  induction c with
  | nil => rfl
  | cons x t ih =>
    have hx : x ≠ '/' := hc x (List.mem_cons_self x t)
    unfold splitOnSlash
    rw [if_neg hx, ih (fun ch hch => hc ch (List.mem_cons_of_mem x hch))]

theorem splitOnSlash_seg (a rest : List Char) (ha : ∀ ch ∈ a, ch ≠ '/') :
    splitOnSlash (a ++ '/' :: rest) = a :: splitOnSlash rest := by
  induction a with
  | nil => rfl
  | cons x a2 ih =>
    have hx : x ≠ '/' := ha x (List.mem_cons_self x a2)
    have ih2 := ih (fun ch hch => ha ch (List.mem_cons_of_mem x hch))
    show splitOnSlash (x :: (a2 ++ '/' :: rest)) = (x :: a2) :: splitOnSlash rest
    rw [splitOnSlash.eq_def]
    dsimp only
    rw [if_neg hx, ih2]

theorem slashfree_split_unique (a1 : List Char) :
    ∀ a2 b1 b2 : List Char, (∀ ch ∈ a1, ch ≠ '/') → (∀ ch ∈ a2, ch ≠ '/') →
      a1 ++ '/' :: b1 = a2 ++ '/' :: b2 → a1 = a2 ∧ b1 = b2 := by
  induction a1 with
  | nil =>
    intro a2 b1 b2 h1 h2 heq
    cases a2 with
    | nil =>
      simp only [List.nil_append] at heq
      exact ⟨rfl, by injection heq⟩
    | cons y a2t =>
      simp only [List.nil_append, List.cons_append] at heq
      injection heq with hy _
      exact absurd hy.symm (h2 y (List.mem_cons_self y a2t))
  | cons x a1t ih =>
    intro a2 b1 b2 h1 h2 heq
    cases a2 with
    | nil =>
      simp only [List.nil_append, List.cons_append] at heq
      injection heq with hx _
      exact absurd hx (h1 x (List.mem_cons_self x a1t))
    | cons y a2t =>
      simp only [List.cons_append] at heq
      injection heq with hxy hrest
      obtain ⟨ha, hb⟩ := ih a2t b1 b2
        (fun ch hch => h1 ch (List.mem_cons_of_mem x hch))
        (fun ch hch => h2 ch (List.mem_cons_of_mem y hch)) hrest
      exact ⟨by rw [hxy, ha], hb⟩

theorem locations_global_prefix (p rest : List Char)
    (hp : ∀ ch ∈ p, ch ≠ '/')
    (h : ("locations/global".toList).isPrefixOf (p ++ '/' :: rest) = true) :
    p = "locations".toList ∧ ("global".toList).isPrefixOf rest = true := by
  rw [List.isPrefixOf_iff_prefix] at h
  obtain ⟨tl, htl⟩ := h
  have htl2 : "locations".toList ++ '/' :: ("global".toList ++ tl)
      = p ++ '/' :: rest := by
    rw [← htl]
    rfl
  obtain ⟨ha, hb⟩ := slashfree_split_unique "locations".toList p
    ("global".toList ++ tl) rest (by decide) hp htl2
  refine ⟨ha.symm, ?_⟩
  rw [List.isPrefixOf_iff_prefix]
  exact ⟨tl, hb⟩

/-- The canonical conversation resource name with location id `global`, as
built by `create_conversation_name` (`dialogflow_api.py:61-64`). -/
def mkNameL (p c : List Char) : List Char :=
  "projects/".toList ++ p ++ "/locations/global/conversations/".toList ++ c

theorem tickerNormalizeL_mkNameL (p c : List Char)
    (hp : ∀ ch ∈ p, ch ≠ '/') (hc : ∀ ch ∈ c, ch ≠ '/') :
    tickerNormalizeL (mkNameL p c)
      = "projects/".toList ++ p ++ "/conversations/".toList ++ c := by
  have hshape : mkNameL p c
      = "projects".toList
        ++ ('/' :: (p ++ '/' :: ("locations/global".toList
              ++ ("/conversations/".toList ++ c)))) := by
    unfold mkNameL
    rw [List.append_assoc, List.append_assoc]
    rfl
  have hnm1 : (('/' :: "locations/global".toList).isPrefixOf
      ('/' :: (p ++ '/' :: ("locations/global".toList
        ++ ("/conversations/".toList ++ c))))) = false := by
    rw [List.isPrefixOf_cons₂,
      show (('/' : Char) == '/') = true from by decide, Bool.true_and]
    cases hb : ("locations/global".toList).isPrefixOf
        (p ++ '/' :: ("locations/global".toList
          ++ ("/conversations/".toList ++ c))) with
    | false => rfl
    | true =>
      obtain ⟨_, hglob⟩ := locations_global_prefix p _ hp hb
      have h2 : (('g' : Char) :: "lobal".toList).isPrefixOf
          ('l' :: ("ocations/global".toList
            ++ ("/conversations/".toList ++ c))) = true := hglob
      rw [List.isPrefixOf_cons₂,
        show (('g' : Char) == 'l') = false from by decide,
        Bool.false_and] at h2
      exact absurd h2 Bool.false_ne_true
  have hnm2 : (('/' :: "locations/global".toList).isPrefixOf
      ('/' :: ("conversations".toList ++ '/' :: c))) = false := by
    rw [List.isPrefixOf_cons₂,
      show (('/' : Char) == '/') = true from by decide, Bool.true_and]
    have h2 : (('l' : Char) :: "ocations/global".toList).isPrefixOf
        ('c' :: ("onversations".toList ++ '/' :: c)) = false := by
      rw [List.isPrefixOf_cons₂,
        show (('l' : Char) == 'c') = false from by decide, Bool.false_and]
    exact h2
  have hnm3 : (('/' :: "locations/global".toList).isPrefixOf ('/' :: c))
      = false := by
    rw [List.isPrefixOf_cons₂,
      show (('/' : Char) == '/') = true from by decide, Bool.true_and]
    exact pat_not_prefix_of_slashfree _ c (by decide) hc
  show removeAll (mkNameL p c) ('/' :: "locations/global".toList)
    = "projects/".toList ++ p ++ "/conversations/".toList ++ c
  rw [hshape,
    removeAll_slashfree_append "locations/global".toList "projects".toList _
      (by decide),
    removeAll_cons_no_match _ _ _ hnm1,
    removeAll_slashfree_append "locations/global".toList p _ hp,
    removeAll_match_head "locations/global".toList
      ("/conversations/".toList ++ c),
    show ("/conversations/".toList ++ c)
        = '/' :: ("conversations".toList ++ '/' :: c) from rfl,
    removeAll_cons_no_match _ _ _ hnm2,
    removeAll_slashfree_append "locations/global".toList "conversations".toList
      _ (by decide),
    removeAll_cons_no_match _ _ _ hnm3,
    removeAll_slashfree_id _ c hc,
    List.append_assoc, List.append_assoc]
  rfl

theorem determineNameWithoutLocationL_mkNameL (p c : List Char)
    (hp : ∀ ch ∈ p, ch ≠ '/') (hc : ∀ ch ∈ c, ch ≠ '/') :
    determineNameWithoutLocationL (mkNameL p c)
      = "projects/".toList ++ p ++ "/conversations/".toList ++ c := by
  have hcontains : containsPat "/locations/".toList (mkNameL p c) = true := by
    have h := containsPat_of_append "/locations/".toList '/' "locations/".toList
      ("projects/".toList ++ p) ("global/conversations/".toList ++ c) rfl
    have hshape2 : mkNameL p c
        = ("projects/".toList ++ p)
          ++ ("/locations/".toList ++ ("global/conversations/".toList ++ c)) := by
      unfold mkNameL
      rw [List.append_assoc]
      rfl
    rw [hshape2]
    exact h
  have hsplit : splitOnSlash (mkNameL p c)
      = ["projects".toList, p, "locations".toList, "global".toList,
         "conversations".toList, c] := by
    have hshape3 : mkNameL p c
        = "projects".toList ++ '/' :: (p ++ '/' :: ("locations".toList
            ++ '/' :: ("global".toList ++ '/' :: ("conversations".toList
              ++ '/' :: c)))) := by
      unfold mkNameL
      rw [List.append_assoc, List.append_assoc]
      rfl
    rw [hshape3, splitOnSlash_seg _ _ (by decide), splitOnSlash_seg _ _ hp,
      splitOnSlash_seg _ _ (by decide), splitOnSlash_seg _ _ (by decide),
      splitOnSlash_seg _ _ (by decide), splitOnSlash_slashfree c hc]
  unfold determineNameWithoutLocationL
  rw [hcontains, if_pos rfl]
  dsimp only
  rw [hsplit]
  show List.intercalate "/".toList
      ["projects".toList, p, "conversations".toList, c]
    = "projects/".toList ++ p ++ "/conversations/".toList ++ c
  simp only [List.intercalate, List.intersperse]
  rw [List.append_assoc, List.append_assoc]
  simp [List.append_assoc]

/-- **C6 (counterexample).**  The claim says the ticker's normalization
(`replace('/locations/global', '')`) equals
`determine_conversation_name_without_location` as a function on conversation
resource names, whatever the location id.  On a name with a non-global
location the `replace` leaves the name untouched, while the generic stripper
removes the location segment. -/
theorem c6_non_global_location_differs :
    tickerNormalize "projects/p/locations/us-central1/conversations/ax"
        = "projects/p/locations/us-central1/conversations/ax"
      ∧ determineConversationNameWithoutLocation
          "projects/p/locations/us-central1/conversations/ax"
        = "projects/p/conversations/ax"
      ∧ ("projects/p/locations/us-central1/conversations/ax" : String)
          ≠ "projects/p/conversations/ax" := by
  decide

/-- **C6 (amended).**  On conversation names whose location id is `global` —
the only kind this deployment builds, `location_id` being extracted from the
configured profile path — the ticker's `replace`-based normalization and
`determine_conversation_name_without_location` agree, both yielding
`projects/<p>/conversations/<c>`; on non-global locations they differ. -/
theorem c6_normalizations_agree_on_global (p c : List Char)
    (hp : ∀ ch ∈ p, ch ≠ '/') (hc : ∀ ch ∈ c, ch ≠ '/') :
    tickerNormalizeL (mkNameL p c) = determineNameWithoutLocationL (mkNameL p c)
      ∧ tickerNormalizeL (mkNameL p c)
        = "projects/".toList ++ p ++ "/conversations/".toList ++ c := by
  have h1 := tickerNormalizeL_mkNameL p c hp hc
  have h2 := determineNameWithoutLocationL_mkNameL p c hp hc
  exact ⟨h1.trans h2.symm, h1⟩

theorem c6_normalizations_agree_on_global_witness :
    tickerNormalizeL (mkNameL "myproj".toList "aabc".toList)
        = determineNameWithoutLocationL (mkNameL "myproj".toList "aabc".toList)
      ∧ tickerNormalizeL (mkNameL "myproj".toList "aabc".toList)
        = "projects/".toList ++ "myproj".toList
            ++ "/conversations/".toList ++ "aabc".toList :=
  c6_normalizations_agree_on_global "myproj".toList "aabc".toList
    (by decide) (by decide)

end AudiohookVerif
